import Mathlib

/-!
# zkpminer: the worker's task protocol

A shallow embedding of `zkpminer/worker.go` (go-evanesco).  A Go method that
mutates the task through its pointer and returns an `error` becomes a function
returning an `Outcome`: the task as the method leaves it, the returned error,
and the trace of the effects the method performed on its collaborators (log
lines, scanner queries, prover and signer calls, sends on the scanner's inbound
channel), in program order.

Code the worker calls but that lives outside `worker.go` (the VRF, the proof
engine, the signer, the scanner, `Task.SetHeader`, ...) is a field of `Env`:
the worker is verified for every behaviour of these collaborators.
-/

namespace Zkpminer

/-- A Go byte slice or byte array, by content. -/
abbrev Bytes := List Nat

/-- The width of `Height` (Go `uint64`). -/
def U64 : Nat := 2 ^ 64

/-- Go `a - b` on `uint64` operands. -/
def subU64 (a b : Nat) : Nat := (a % U64 + U64 - b % U64) % U64

/-- Go `a + b` on `uint64` operands. -/
def addU64 (a b : Nat) : Nat := (a + b) % U64

/-- Go's builtin `copy(dst, src)`: overwrites the first `min (len dst) (len src)`
bytes of `dst`, leaving its length as it was. -/
def copyBytes (dst src : Bytes) : Bytes :=
  src.take dst.length ++ dst.drop src.length

/-- `len(b) == 0` for a slice that may be nil (`none`). -/
def isEmptySlice : Option Bytes → Bool
  | none => true
  | some b => b.isEmpty

/-- The `error` values the worker returns: its two package-level errors and the
errors handed back by a collaborator (serialization, signing, chain query). -/
inductive Error where
  | InvalidStepError
  | ZKPProofError
  | other (msg : String)
  deriving DecidableEq, Repr

/-- Go `err.Error()`. -/
def Error.text : Error → String
  | .InvalidStepError => "invalid task step"
  | .ZKPProofError => "zkp prove error"
  | .other msg => msg

/-- Modelled from the spec: the declaration of `TaskStep` and of its constants is
not in `worker.go`; the spec gives the enumeration
START, WAIT_CHALLENGE_BLOCK, GOT_CHALLENGE_BLOCK, SOLVED, named here by the
constants the worker uses. -/
inductive TaskStep where
  | TASKSTART
  | TASKWAITCHALLENGEBLOCK
  | TASKGETCHALLENGEBLOCK
  | TASKPROBLEMSOLVED
  deriving DecidableEq, Repr

open TaskStep

/-- Position of a step in the protocol order
START < WAIT_CHALLENGE_BLOCK < GOT_CHALLENGE_BLOCK < SOLVED. -/
def TaskStep.rank : TaskStep → Nat
  | TASKSTART => 0
  | TASKWAITCHALLENGEBLOCK => 1
  | TASKGETCHALLENGEBLOCK => 2
  | TASKPROBLEMSOLVED => 3

/-- The lottery ticket under construction (`types.Lottery`): the fields the
worker reads and writes.  `MimcHash` and `ZkpProof` are slices the worker
compares with nil, so nil is `none`. -/
structure Lottery where
  MinerAddr : Bytes
  Index : Bytes
  VrfProof : Bytes
  ChallengeHeaderHash : Bytes
  MimcHash : Option Bytes
  ZkpProof : Option Bytes
  deriving DecidableEq, Repr

/-- Go `lottery.SetMinerAddr(addr)`. -/
def Lottery.SetMinerAddr (l : Lottery) (addr : Bytes) : Lottery :=
  { l with MinerAddr := addr }

/-- One lottery attempt (`Task`): the fields the worker reads and writes. -/
structure Task where
  Step : TaskStep
  minerAddr : Bytes
  lastCoinBaseHash : Bytes
  challengeIndex : Nat
  lottery : Lottery
  signature : Bytes
  deriving DecidableEq, Repr

/-- A block header (`types.Header`), kept abstract: the worker only passes it on. -/
structure Header where
  id : Nat
  deriving DecidableEq, Repr

/-- The state of a Go channel as far as `close` is concerned. -/
inductive Chan where
  | nilChan
  | openChan
  | closedChan
  deriving DecidableEq, Repr

/-- The fields of `Worker` that its methods read or write. -/
structure Worker where
  running : Int
  minerAddr : Bytes
  sk : Bytes
  workingTaskCnt : Int
  coinbaseInterval : Nat
  submitAdvance : Nat
  inboundTaskCh : Chan
  exitCh : Chan
  deriving DecidableEq, Repr

/-- Severity of a log line (`log.Debug`, `log.Info`, `log.Error`). -/
inductive Level where
  | debug
  | info
  | error
  deriving DecidableEq, Repr

/-- An effect of a worker method on the world outside the task.  A log line is
recorded by its level and message, without its key/value context. -/
inductive Event where
  | log (lvl : Level) (msg : String)
  | getHeader (height : Nat)
  | prove (preimage : Bytes)
  | sign (hash : Bytes)
  | scannerSend (task : Task)
  deriving DecidableEq, Repr

/-- What a method leaves behind: the task, the returned error, the effects. -/
structure Outcome where
  task : Task
  err : Option Error
  events : List Event
  deriving DecidableEq, Repr

/-- The collaborators of the worker, whose code is outside `worker.go`.
A Go result pair `(value, err)` is a pair whose second component is `none` for a
nil error; a pointer or slice result that may be nil is an `Option`. -/
structure Env where
  /-- Go `vrf.Evaluate(sk, seed)`, returning `(index, proof)`. -/
  Evaluate : Bytes → Bytes → Bytes × Bytes
  /-- Go `problem.GetChallengeIndex(index, bound)`. -/
  GetChallengeIndex : Bytes → Nat → Nat
  /-- Go `w.scanner.LastCoinbaseHeight`. -/
  LastCoinbaseHeight : Nat
  /-- Go `w.scanner.GetHeader(height)`. -/
  GetHeader : Nat → Option Header × Option Error
  /-- Go `task.SetHeader(header)`. -/
  SetHeader : Header → Task → Task
  /-- Go `crypto.Keccak256(b)`. -/
  Keccak256 : Bytes → Bytes
  /-- Go `w.zkpProver.Prove(preimage)`, returning `(mimcHash, proof)`. -/
  Prove : Bytes → Option Bytes × Option Bytes
  /-- Go `task.lottery.Serialize()`. -/
  Serialize : Lottery → Bytes × Option Error
  /-- Go `crypto.Sign(hash, sk)`. -/
  Sign : Bytes → Bytes → Bytes × Option Error

/-- Go `Worker.SignLottery`. -/
def SignLottery (env : Env) (w : Worker) (task : Task) : Outcome :=
  match env.Serialize task.lottery with
  | (_, some err) => ⟨task, some err, []⟩
  | (b, none) =>
    let hash := env.Keccak256 b
    match env.Sign hash w.sk with
    | (_, some err) => ⟨task, some err, [Event.sign hash]⟩
    | (sig, none) =>
      ⟨{ task with signature := copyBytes task.signature sig }, none, [Event.sign hash]⟩

/-- Go `Worker.SolveProblem`. -/
def SolveProblem (env : Env) (w : Worker) (task : Task) : Outcome :=
  if task.Step ≠ TASKGETCHALLENGEBLOCK then
    ⟨task, some Error.InvalidStepError, []⟩
  else
    let addrBytes := task.minerAddr
    let preimage := env.Keccak256 (addrBytes ++ task.lottery.ChallengeHeaderHash)
    match env.Prove preimage with
    | (some mimcHash, some proof) =>
      let task1 : Task :=
        { task with lottery := { task.lottery with ZkpProof := some proof, MimcHash := some mimcHash } }
      let r := SignLottery env w task1
      match r.err with
      | some err => ⟨r.task, some err, Event.prove preimage :: r.events⟩
      | none => ⟨{ r.task with Step := TASKPROBLEMSOLVED }, none, Event.prove preimage :: r.events⟩
    | _ => ⟨task, some Error.ZKPProofError, [Event.prove preimage]⟩

/-- The effects `evs` happened first, then those of `r`. -/
def Outcome.after (evs : List Event) (r : Outcome) : Outcome :=
  { r with events := evs ++ r.events }

/-- Go `Worker.HandleChallengedTask`. -/
def HandleChallengedTask (env : Env) (w : Worker) (task : Task) : Outcome :=
  let r := SolveProblem env w task
  match r.err with
  | some err =>
    ⟨r.task, some err,
      Event.log Level.info "start working ZKP problem" :: r.events ++
        [Event.log Level.error "solve zkp problem error"]⟩
  | none =>
    ⟨r.task, none,
      Event.log Level.info "start working ZKP problem" :: r.events ++
        [Event.log Level.info "ZKP problem finished", Event.scannerSend r.task]⟩

/-- Go `Worker.HandleTaskAfterChallenge`. -/
def HandleTaskAfterChallenge (env : Env) (w : Worker) (header : Header) (task : Task) : Outcome :=
  (HandleChallengedTask env w (env.SetHeader header task)).after
    [Event.log Level.debug "handler task after challenge"]

/-- Go `Worker.HandlerTaskBeforeChallenge`. -/
def HandlerTaskBeforeChallenge (_w : Worker) (task : Task) : Outcome :=
  let task1 : Task := { task with Step := TASKWAITCHALLENGEBLOCK }
  ⟨task1, none,
    [Event.log Level.debug "handle task before challenge", Event.scannerSend task1]⟩

/-- The task as `Worker.HandleStartTask` has it when it queries the scanner
(the assignments of lines 97 to 104 of `worker.go`). -/
def vrfStage (env : Env) (w : Worker) (task : Task) : Task :=
  let task1 : Task := { task with minerAddr := w.minerAddr }
  let task2 : Task := { task1 with lottery := task1.lottery.SetMinerAddr w.minerAddr }
  let (index, proof) := env.Evaluate w.sk task2.lastCoinBaseHash
  let task3 : Task :=
    { task2 with
      challengeIndex :=
        env.GetChallengeIndex index (subU64 w.coinbaseInterval w.submitAdvance) % U64 }
  let task4 : Task := { task3 with lottery := { task3.lottery with VrfProof := proof } }
  let task5 : Task := { task4 with lottery := { task4.lottery with Index := index } }
  { task5 with Step := TASKWAITCHALLENGEBLOCK }

/-- The height `Worker.HandleStartTask` asks the scanner for:
`w.scanner.LastCoinbaseHeight + task.challengeIndex` on `Height`. -/
def challengeHeight (env : Env) (task : Task) : Nat :=
  addU64 env.LastCoinbaseHeight task.challengeIndex

/-- Go `Worker.HandleStartTask`. -/
def HandleStartTask (env : Env) (w : Worker) (task : Task) : Outcome :=
  let task1 := vrfStage env w task
  let height := challengeHeight env task1
  let evs : List Event :=
    [Event.log Level.debug "handle start task",
     Event.log Level.info "vrf finished",
     Event.log Level.info "waiting for challenge block",
     Event.getHeader height]
  match env.GetHeader height with
  | (some header, none) => (HandleTaskAfterChallenge env w header task1).after evs
  | _ => (HandlerTaskBeforeChallenge w task1).after evs

/-- Go `Worker.isRunning`. -/
def isRunning (w : Worker) : Bool := w.running == 1

/-- Go `Worker.start`. -/
def start (w : Worker) : Worker := { w with running := 1 }

/-- Go `Worker.stop`. -/
def stop (w : Worker) : Worker := { w with running := 0 }

/-- Go's builtin `close(ch)`: the channel once closed, or the panic it raises on
a nil or an already closed channel. -/
def closeChan : Chan → Except String Chan
  | Chan.nilChan => Except.error "close of nil channel"
  | Chan.openChan => Except.ok Chan.closedChan
  | Chan.closedChan => Except.error "close of closed channel"

/-- The statements of `Worker.close` after its `defer`: the worker as they leave
it and the panic they raise, if any. -/
def closeBody (w : Worker) : Worker × Option String :=
  let w1 : Worker := { w with running := 0 }
  match closeChan w1.exitCh with
  | Except.ok ch => ({ w1 with exitCh := ch }, none)
  | Except.error p => (w1, some p)

/-- Go `Worker.close`: the body, then the deferred function, whose `recover()`
stops whatever panic the body raised.  The second component is the panic that
reaches the caller. -/
def close (w : Worker) : Worker × Option String :=
  let (w1, _p) := closeBody w
  (w1, none)

/-- Go `atomic.AddInt32`: addition on `int32`. -/
def addInt32 (a delta : Int) : Int := (a + delta + 2 ^ 31) % 2 ^ 32 - 2 ^ 31

/-- Which handler a goroutine started by `Loop` runs. -/
inductive Handler where
  | startTask
  | challengedTask
  deriving DecidableEq, Repr

/-- The end of a goroutine started by `Loop`: `log.Error(err.Error())` when the
handler returned an error. -/
def logError (r : Outcome) : Outcome :=
  match r.err with
  | some err => { r with events := r.events ++ [Event.log Level.error err.text] }
  | none => r

/-- The body of a goroutine started by `Loop`: counts itself in
`workingTaskCnt`, runs the handler, logs the error it returns. -/
def goroutine (env : Env) (w : Worker) (h : Handler) (task : Task) : Worker × Outcome :=
  let w1 : Worker := { w with workingTaskCnt := addInt32 w.workingTaskCnt 1 }
  let r :=
    match h with
    | Handler.startTask => HandleStartTask env w1 task
    | Handler.challengedTask => HandleChallengedTask env w1 task
  ({ w1 with workingTaskCnt := addInt32 w1.workingTaskCnt (-1) }, logError r)

/-- The case of the `select` in `Loop` that fires. -/
inductive Signal where
  | exit
  | inbound (task : Task)
  deriving DecidableEq, Repr

/-- What one iteration of `Loop` does: the worker afterwards, whether the loop
goes on (`false`: `Loop` returned), the goroutine the iteration started, and
the log lines the iteration itself wrote. -/
structure Iteration where
  worker : Worker
  continues : Bool
  spawned : Option (Handler × Task)
  logged : List Event
  deriving DecidableEq, Repr

/-- One iteration of the `for` of Go `Worker.Loop`. -/
def Loop (w : Worker) : Signal → Iteration
  | Signal.exit => ⟨{ w with running := 0 }, false, none, []⟩
  | Signal.inbound task =>
    if !isRunning w then
      ⟨w, true, none, []⟩
    else if task.Step = TASKSTART then
      ⟨w, true, some (Handler.startTask, task), []⟩
    else if task.Step = TASKGETCHALLENGEBLOCK then
      ⟨w, true, some (Handler.challengedTask, task), []⟩
    else
      ⟨w, true, none, []⟩

/-- The goroutine an iteration of `Loop` started, run to its end on the worker
the iteration left: nothing when the iteration started none. -/
def Iteration.run (env : Env) (it : Iteration) : Option (Worker × Outcome) :=
  match it.spawned with
  | none => none
  | some (h, task) => some (goroutine env it.worker h task)

/-! ## Reading a trace -/

/-- The heights the scanner was asked for, in order. -/
def queries : List Event → List Nat
  | [] => []
  | Event.getHeader h :: es => h :: queries es
  | _ :: es => queries es

/-- The tasks sent on the scanner's inbound channel, in order. -/
def sends : List Event → List Task
  | [] => []
  | Event.scannerSend t :: es => t :: sends es
  | _ :: es => sends es

/-- The preimages the prover was called on, in order. -/
def proveCalls : List Event → List Bytes
  | [] => []
  | Event.prove p :: es => p :: proveCalls es
  | _ :: es => proveCalls es

/-- The hashes the signer was called on, in order. -/
def signCalls : List Event → List Bytes
  | [] => []
  | Event.sign h :: es => h :: signCalls es
  | _ :: es => signCalls es

/-! ## Concrete collaborators, workers and tasks -/

/-- A ticket with nothing filled in. -/
def emptyLottery : Lottery := ⟨[], [], [], [], none, none⟩

/-- A fresh task at step `s`, its 65-byte signature all zero. -/
def freshTask (s : TaskStep) : Task :=
  ⟨s, [], [7], 0, emptyLottery, List.replicate 65 0⟩

/-- A running worker with both channels made, `coinbaseInterval = 5` as in
`DefaultTestConfig` and `submitAdvance = 2` as in the scenario of the spec. -/
def testWorker : Worker :=
  ⟨1, [1, 2], [9], 0, 5, 2, Chan.openChan, Chan.openChan⟩

/-- Collaborators that behave: the index is reduced modulo the bound, headers up
to height 101 exist, `SetHeader` binds the header and moves the task to
GOT_CHALLENGE_BLOCK, the prover returns two non-empty slices and the signer a
65-byte signature. -/
def testEnv : Env where
  Evaluate := fun sk seed => (sk ++ seed, seed)
  GetChallengeIndex := fun index bound => index.sum % bound
  LastCoinbaseHeight := 100
  GetHeader := fun h =>
    if h ≤ 101 then (some ⟨h⟩, none) else (none, some (Error.other "not found"))
  SetHeader := fun header task =>
    { task with
      Step := TASKGETCHALLENGEBLOCK
      lottery := { task.lottery with ChallengeHeaderHash := [header.id] } }
  Keccak256 := fun b => [b.sum % 256]
  Prove := fun preimage => (some preimage, some (1 :: preimage))
  Serialize := fun l => (l.MinerAddr ++ l.Index, none)
  Sign := fun _ _ => (List.replicate 65 1, none)

/-! ## Names for the intermediate values of the methods -/

/-- The preimage `SolveProblem` hands to the prover: the hash of the miner
address followed by the challenge header hash. -/
def preimageOf (env : Env) (task : Task) : Bytes :=
  env.Keccak256 (task.minerAddr ++ task.lottery.ChallengeHeaderHash)

/-- The task once `SolveProblem` has stored the prover's output in the ticket. -/
def withProof (task : Task) (mimcHash proof : Bytes) : Task :=
  { task with lottery := { task.lottery with ZkpProof := some proof, MimcHash := some mimcHash } }

/-- Modelled from the spec: `problem.GetChallengeIndex` is called by the worker
but its code is not among the sources; the spec describes it as a deterministic
mapping from the VRF output into the half-open range from 0 to the bound it is
given.  This is that contract, for a positive bound. -/
def SelectsInRange (sel : Bytes → Nat → Nat) : Prop :=
  ∀ (index : Bytes) (bound : Nat), 0 < bound → sel index bound < bound

/-- Modelled from the spec: `Prover.Prove` is not among the sources; the spec has
it return a hash and a proof, or absent values.  A slice it returns is absent
(nil) or holds bytes. -/
def NilOrNonEmpty (b : Option Bytes) : Prop :=
  b = none ∨ isEmptySlice b = false

/-- The result of go-ethereum's `crypto.Sign`: an error, or a signature of 65
bytes (R, S and the recovery id) that are not all zero. -/
def SignsOrFails (r : Bytes × Option Error) : Prop :=
  r.2 ≠ none ∨ (r.1.length = 65 ∧ r.1 ≠ List.replicate 65 0)

/-- Modelled from the spec: `Task.SetHeader` is not among the sources; the spec
has it bind the challenge header hash, and has `challengeIndex` immutable once
computed. -/
def KeepsChallengeIndex (setHeader : Header → Task → Task) : Prop :=
  ∀ (header : Header) (task : Task), (setHeader header task).challengeIndex = task.challengeIndex

/-- What `HandleStartTask` logs and asks before it branches on the header. -/
def startTrace (height : Nat) : List Event :=
  [Event.log Level.debug "handle start task",
   Event.log Level.info "vrf finished",
   Event.log Level.info "waiting for challenge block",
   Event.getHeader height]

/-! ## Lemmas on the trace of the solving path -/

theorem SignLottery_step (env : Env) (w : Worker) (task : Task) :
    (SignLottery env w task).task.Step = task.Step := by
  unfold SignLottery
  split
  · rfl
  · dsimp only
    split <;> rfl

theorem SignLottery_lottery (env : Env) (w : Worker) (task : Task) :
    (SignLottery env w task).task.lottery = task.lottery := by
  unfold SignLottery
  split
  · rfl
  · dsimp only
    split <;> rfl

theorem SignLottery_sends (env : Env) (w : Worker) (task : Task) :
    sends (SignLottery env w task).events = [] ∧
    queries (SignLottery env w task).events = [] ∧
    proveCalls (SignLottery env w task).events = [] ∧
    (signCalls (SignLottery env w task).events).length ≤ 1 := by
  unfold SignLottery
  split
  · simp [sends, queries, proveCalls, signCalls]
  · dsimp only
    split <;> simp [sends, queries, proveCalls, signCalls]

theorem SolveProblem_trace (env : Env) (w : Worker) (task : Task) :
    sends (SolveProblem env w task).events = [] ∧
    queries (SolveProblem env w task).events = [] ∧
    (proveCalls (SolveProblem env w task).events).length ≤ 1 ∧
    (signCalls (SolveProblem env w task).events).length ≤ 1 := by
  have hs := SignLottery_sends env w
  unfold SolveProblem
  split
  · simp [sends, queries, proveCalls, signCalls]
  · dsimp only
    split
    · split <;> simp [sends, queries, proveCalls, signCalls, hs]
    · simp [sends, queries, proveCalls, signCalls]

theorem SolveProblem_of_wrong_step (env : Env) (w : Worker) (task : Task)
    (h : task.Step ≠ TASKGETCHALLENGEBLOCK) :
    SolveProblem env w task = ⟨task, some Error.InvalidStepError, []⟩ := by
  simp [SolveProblem, h]

theorem SolveProblem_of_no_proof (env : Env) (w : Worker) (task : Task)
    (h : task.Step = TASKGETCHALLENGEBLOCK)
    (hp : (env.Prove (preimageOf env task)).1 = none ∨ (env.Prove (preimageOf env task)).2 = none) :
    SolveProblem env w task =
      ⟨task, some Error.ZKPProofError, [Event.prove (preimageOf env task)]⟩ := by
  unfold preimageOf at hp
  unfold SolveProblem
  rw [if_neg (by simp [h])]
  dsimp only
  split
  · rename_i heq
    rw [heq] at hp
    simp at hp
  · rfl

theorem SolveProblem_of_proof (env : Env) (w : Worker) (task : Task)
    (mimcHash proof : Bytes)
    (h : task.Step = TASKGETCHALLENGEBLOCK)
    (hp : env.Prove (preimageOf env task) = (some mimcHash, some proof)) :
    SolveProblem env w task =
      match (SignLottery env w (withProof task mimcHash proof)).err with
      | some err =>
        ⟨(SignLottery env w (withProof task mimcHash proof)).task, some err,
          Event.prove (preimageOf env task) ::
            (SignLottery env w (withProof task mimcHash proof)).events⟩
      | none =>
        ⟨{ (SignLottery env w (withProof task mimcHash proof)).task with
            Step := TASKPROBLEMSOLVED }, none,
          Event.prove (preimageOf env task) ::
            (SignLottery env w (withProof task mimcHash proof)).events⟩ := by
  unfold preimageOf at hp
  unfold SolveProblem
  rw [if_neg (by simp [h])]
  dsimp only
  rw [hp]
  rfl

/-- The three ways `SolveProblem` ends on a task at GOT_CHALLENGE_BLOCK. -/
theorem SolveProblem_cases (env : Env) (w : Worker) (task : Task)
    (h : task.Step = TASKGETCHALLENGEBLOCK) :
    (((env.Prove (preimageOf env task)).1 = none ∨ (env.Prove (preimageOf env task)).2 = none) ∧
      SolveProblem env w task =
        ⟨task, some Error.ZKPProofError, [Event.prove (preimageOf env task)]⟩) ∨
    (∃ mimcHash proof err,
      env.Prove (preimageOf env task) = (some mimcHash, some proof) ∧
      (SignLottery env w (withProof task mimcHash proof)).err = some err ∧
      SolveProblem env w task =
        ⟨(SignLottery env w (withProof task mimcHash proof)).task, some err,
          Event.prove (preimageOf env task) ::
            (SignLottery env w (withProof task mimcHash proof)).events⟩) ∨
    (∃ mimcHash proof,
      env.Prove (preimageOf env task) = (some mimcHash, some proof) ∧
      (SignLottery env w (withProof task mimcHash proof)).err = none ∧
      SolveProblem env w task =
        ⟨{ (SignLottery env w (withProof task mimcHash proof)).task with
            Step := TASKPROBLEMSOLVED }, none,
          Event.prove (preimageOf env task) ::
            (SignLottery env w (withProof task mimcHash proof)).events⟩) := by
  rcases hp : env.Prove (preimageOf env task) with ⟨_ | m, _ | p⟩
  · exact Or.inl ⟨by simp, SolveProblem_of_no_proof env w task h (by simp [hp])⟩
  · exact Or.inl ⟨by simp, SolveProblem_of_no_proof env w task h (by simp [hp])⟩
  · exact Or.inl ⟨by simp, SolveProblem_of_no_proof env w task h (by simp [hp])⟩
  · have hs := SolveProblem_of_proof env w task m p h hp
    cases he : (SignLottery env w (withProof task m p)).err with
    | none =>
      rw [he] at hs
      exact Or.inr (Or.inr ⟨m, p, rfl, he, hs⟩)
    | some e =>
      rw [he] at hs
      exact Or.inr (Or.inl ⟨m, p, e, rfl, he, hs⟩)

theorem SolveProblem_err_step (env : Env) (w : Worker) (task : Task)
    (h : (SolveProblem env w task).err ≠ none) :
    (SolveProblem env w task).task.Step = task.Step := by
  by_cases hstep : task.Step = TASKGETCHALLENGEBLOCK
  · rcases SolveProblem_cases env w task hstep with ⟨_, hs⟩ | ⟨m, p, e, _, _, hs⟩ | ⟨m, p, _, _, hs⟩
    · rw [hs]
    · rw [hs]
      exact SignLottery_step env w (withProof task m p)
    · rw [hs] at h
      exact absurd rfl h
  · rw [SolveProblem_of_wrong_step env w task hstep]

theorem SolveProblem_ok_step (env : Env) (w : Worker) (task : Task)
    (h : (SolveProblem env w task).err = none) :
    task.Step = TASKGETCHALLENGEBLOCK ∧
    (SolveProblem env w task).task.Step = TASKPROBLEMSOLVED := by
  by_cases hstep : task.Step = TASKGETCHALLENGEBLOCK
  · refine ⟨hstep, ?_⟩
    rcases SolveProblem_cases env w task hstep with ⟨_, hs⟩ | ⟨m, p, e, _, _, hs⟩ | ⟨m, p, _, _, hs⟩
    · rw [hs] at h
      simp at h
    · rw [hs] at h
      simp at h
    · rw [hs]
  · rw [SolveProblem_of_wrong_step env w task hstep] at h
    simp at h

theorem SolveProblem_rank (env : Env) (w : Worker) (task : Task) :
    task.Step.rank ≤ (SolveProblem env w task).task.Step.rank := by
  cases h : (SolveProblem env w task).err with
  | none =>
    obtain ⟨h1, h2⟩ := SolveProblem_ok_step env w task h
    rw [h1, h2]
    decide
  | some e =>
    have := SolveProblem_err_step env w task (by simp [h])
    rw [this]

theorem copyBytes_same_length (dst src : Bytes) (h : src.length = dst.length) :
    copyBytes dst src = src := by
  unfold copyBytes
  rw [← h, List.take_length, List.drop_eq_nil_of_le (le_of_eq h.symm), List.append_nil]

/-- A successful `SignLottery` serialized the ticket, signed the hash of the
bytes with the worker's key, and copied the signature over the task's. -/
theorem SignLottery_ok (env : Env) (w : Worker) (task : Task)
    (h : (SignLottery env w task).err = none) :
    ∃ b sig,
      env.Serialize task.lottery = (b, none) ∧
      env.Sign (env.Keccak256 b) w.sk = (sig, none) ∧
      (SignLottery env w task).task = { task with signature := copyBytes task.signature sig } := by
  unfold SignLottery at h ⊢
  rcases hser : env.Serialize task.lottery with ⟨b, _ | e⟩
  · rcases hsig : env.Sign (env.Keccak256 b) w.sk with ⟨sig, _ | e⟩
    · exact ⟨b, sig, rfl, hsig, by simp [hsig]⟩
    · simp [hser, hsig] at h
  · simp [hser] at h

theorem sends_append (xs ys : List Event) : sends (xs ++ ys) = sends xs ++ sends ys := by
  induction xs with
  | nil => rfl
  | cons e es ih => cases e <;> simp [sends, ih]

theorem queries_append (xs ys : List Event) :
    queries (xs ++ ys) = queries xs ++ queries ys := by
  induction xs with
  | nil => rfl
  | cons e es ih => cases e <;> simp [queries, ih]

theorem proveCalls_append (xs ys : List Event) :
    proveCalls (xs ++ ys) = proveCalls xs ++ proveCalls ys := by
  induction xs with
  | nil => rfl
  | cons e es ih => cases e <;> simp [proveCalls, ih]

theorem signCalls_append (xs ys : List Event) :
    signCalls (xs ++ ys) = signCalls xs ++ signCalls ys := by
  induction xs with
  | nil => rfl
  | cons e es ih => cases e <;> simp [signCalls, ih]

/-- The outcome of `HandleChallengedTask` when `SolveProblem` fails. -/
theorem HandleChallengedTask_of_err (env : Env) (w : Worker) (task : Task) (e : Error)
    (h : (SolveProblem env w task).err = some e) :
    HandleChallengedTask env w task =
      ⟨(SolveProblem env w task).task, some e,
        Event.log Level.info "start working ZKP problem" :: (SolveProblem env w task).events ++
          [Event.log Level.error "solve zkp problem error"]⟩ := by
  unfold HandleChallengedTask
  dsimp only
  rw [h]

/-- The outcome of `HandleChallengedTask` when `SolveProblem` succeeds. -/
theorem HandleChallengedTask_of_ok (env : Env) (w : Worker) (task : Task)
    (h : (SolveProblem env w task).err = none) :
    HandleChallengedTask env w task =
      ⟨(SolveProblem env w task).task, none,
        Event.log Level.info "start working ZKP problem" :: (SolveProblem env w task).events ++
          [Event.log Level.info "ZKP problem finished",
           Event.scannerSend (SolveProblem env w task).task]⟩ := by
  unfold HandleChallengedTask
  dsimp only
  rw [h]

theorem HandleChallengedTask_task (env : Env) (w : Worker) (task : Task) :
    (HandleChallengedTask env w task).task = (SolveProblem env w task).task ∧
    (HandleChallengedTask env w task).err = (SolveProblem env w task).err := by
  cases h : (SolveProblem env w task).err with
  | none => rw [HandleChallengedTask_of_ok env w task h]; exact ⟨rfl, rfl⟩
  | some e => rw [HandleChallengedTask_of_err env w task e h]; exact ⟨rfl, rfl⟩

theorem HandleChallengedTask_trace (env : Env) (w : Worker) (task : Task) :
    queries (HandleChallengedTask env w task).events = [] ∧
    (proveCalls (HandleChallengedTask env w task).events).length ≤ 1 ∧
    (signCalls (HandleChallengedTask env w task).events).length ≤ 1 ∧
    sends (HandleChallengedTask env w task).events =
      (match (SolveProblem env w task).err with
        | none => [(SolveProblem env w task).task]
        | some _ => []) := by
  obtain ⟨h1, h2, h3, h4⟩ := SolveProblem_trace env w task
  cases h : (SolveProblem env w task).err with
  | none =>
    rw [HandleChallengedTask_of_ok env w task h]
    simp [sends, queries, proveCalls, signCalls, sends_append, queries_append,
      proveCalls_append, signCalls_append, h1, h2, h3, h4]
  | some e =>
    rw [HandleChallengedTask_of_err env w task e h]
    simp [sends, queries, proveCalls, signCalls, sends_append, queries_append,
      proveCalls_append, signCalls_append, h1, h2, h3, h4]

theorem HandleChallengedTask_rank (env : Env) (w : Worker) (task : Task) :
    task.Step.rank ≤ (HandleChallengedTask env w task).task.Step.rank := by
  rw [(HandleChallengedTask_task env w task).1]
  exact SolveProblem_rank env w task

theorem SignLottery_challengeIndex (env : Env) (w : Worker) (task : Task) :
    (SignLottery env w task).task.challengeIndex = task.challengeIndex := by
  unfold SignLottery
  split
  · rfl
  · dsimp only
    split <;> rfl

theorem SolveProblem_challengeIndex (env : Env) (w : Worker) (task : Task) :
    (SolveProblem env w task).task.challengeIndex = task.challengeIndex := by
  by_cases hstep : task.Step = TASKGETCHALLENGEBLOCK
  · rcases SolveProblem_cases env w task hstep with ⟨_, hs⟩ | ⟨m, p, e, _, _, hs⟩ | ⟨m, p, _, _, hs⟩
    · rw [hs]
    · rw [hs]
      exact SignLottery_challengeIndex env w (withProof task m p)
    · rw [hs]
      exact SignLottery_challengeIndex env w (withProof task m p)
  · rw [SolveProblem_of_wrong_step env w task hstep]

/-! ## Lemmas on `HandleStartTask` -/

theorem vrfStage_step (env : Env) (w : Worker) (task : Task) :
    (vrfStage env w task).Step = TASKWAITCHALLENGEBLOCK := rfl

theorem vrfStage_challengeIndex (env : Env) (w : Worker) (task : Task) :
    (vrfStage env w task).challengeIndex =
      env.GetChallengeIndex (env.Evaluate w.sk task.lastCoinBaseHash).1
        (subU64 w.coinbaseInterval w.submitAdvance) % U64 := rfl

theorem subU64_of_le (a b : Nat) (ha : a < U64) (hb : b ≤ a) : subU64 a b = a - b := by
  unfold subU64
  have hb2 : b < U64 := lt_of_le_of_lt hb ha
  rw [Nat.mod_eq_of_lt ha, Nat.mod_eq_of_lt hb2]
  have h : a + U64 - b = (a - b) + U64 := by omega
  rw [h, Nat.add_mod_right, Nat.mod_eq_of_lt (lt_of_le_of_lt (Nat.sub_le a b) ha)]

theorem HandleStartTask_of_header (env : Env) (w : Worker) (task : Task) (header : Header)
    (h : env.GetHeader (challengeHeight env (vrfStage env w task)) = (some header, none)) :
    HandleStartTask env w task =
      (HandleTaskAfterChallenge env w header (vrfStage env w task)).after
        (startTrace (challengeHeight env (vrfStage env w task))) := by
  unfold HandleStartTask
  dsimp only
  rw [h]
  rfl

theorem HandleStartTask_of_no_header (env : Env) (w : Worker) (task : Task)
    (h : ∀ header, env.GetHeader (challengeHeight env (vrfStage env w task)) ≠ (some header, none)) :
    HandleStartTask env w task =
      (HandlerTaskBeforeChallenge w (vrfStage env w task)).after
        (startTrace (challengeHeight env (vrfStage env w task))) := by
  unfold HandleStartTask
  dsimp only
  split
  · rename_i hd heq
    exact absurd heq (h hd)
  · rfl

/-- The header query of `HandleStartTask` has one of two results: a header and no
error, or anything else. -/
theorem GetHeader_cases (env : Env) (height : Nat) :
    (∃ header, env.GetHeader height = (some header, none)) ∨
    (∀ header, env.GetHeader height ≠ (some header, none)) := by
  rcases hq : env.GetHeader height with ⟨_ | hd, _ | e⟩
  · exact Or.inr (fun header => by simp)
  · exact Or.inr (fun header => by simp)
  · exact Or.inl ⟨hd, rfl⟩
  · exact Or.inr (fun header => by simp)

/-- When `SolveProblem` moves a task to SOLVED, the prover returned
two slices that are not nil and the ticket holds exactly these as `MimcHash` and
`ZkpProof`; serialization and signing returned no error, and the task's
signature is its former signature overwritten by `copy` with the signature
`crypto.Sign` returned for the hash of the serialized ticket (it is that
signature when the two have the same length); no error is returned. -/
theorem SolveProblem_solved_fields (env : Env) (w : Worker) (task : Task)
    (hbefore : task.Step ≠ TASKPROBLEMSOLVED)
    (hafter : (SolveProblem env w task).task.Step = TASKPROBLEMSOLVED) :
    ∃ mimcHash proof b sig,
      env.Prove (preimageOf env task) = (some mimcHash, some proof) ∧
      (SolveProblem env w task).task.lottery.MimcHash = some mimcHash ∧
      (SolveProblem env w task).task.lottery.ZkpProof = some proof ∧
      env.Serialize (withProof task mimcHash proof).lottery = (b, none) ∧
      env.Sign (env.Keccak256 b) w.sk = (sig, none) ∧
      (SolveProblem env w task).task.signature = copyBytes task.signature sig ∧
      (sig.length = task.signature.length → (SolveProblem env w task).task.signature = sig) ∧
      (SolveProblem env w task).err = none ∧
      (SolveProblem env w task).task.lottery = (withProof task mimcHash proof).lottery := by
  by_cases hstep : task.Step = TASKGETCHALLENGEBLOCK
  · rcases SolveProblem_cases env w task hstep with ⟨_, hs⟩ | ⟨m, p, e, _, _, hs⟩ | ⟨m, p, hp, he, hs⟩
    · rw [hs] at hafter
      exact absurd hafter hbefore
    · rw [hs] at hafter
      have := SignLottery_step env w (withProof task m p)
      rw [hafter] at this
      exact absurd this.symm hbefore
    · obtain ⟨b, sig, hser, hsig, ht⟩ := SignLottery_ok env w (withProof task m p) he
      refine ⟨m, p, b, sig, hp, ?_, ?_, hser, hsig, ?_, ?_, ?_, ?_⟩
      · rw [hs, ht]; rfl
      · rw [hs, ht]; rfl
      · rw [hs, ht]; rfl
      · intro hlen
        rw [hs, ht]
        exact copyBytes_same_length task.signature sig hlen
      · rw [hs]
      · rw [hs, ht]
  · rw [SolveProblem_of_wrong_step env w task hstep] at hafter
    exact absurd hafter hbefore

/-- What `HandleStartTask` does with the index it computed: it asks the scanner
once, at the challenge height of that index, and, when `Task.SetHeader` keeps
the index, the task it leaves and every task it sends carry that index. -/
theorem HandleStartTask_index (env : Env) (w : Worker) (task : Task) :
    queries (HandleStartTask env w task).events =
      [addU64 env.LastCoinbaseHeight (vrfStage env w task).challengeIndex] ∧
    (KeepsChallengeIndex env.SetHeader →
      (HandleStartTask env w task).task.challengeIndex = (vrfStage env w task).challengeIndex ∧
      ∀ t ∈ sends (HandleStartTask env w task).events,
        t.challengeIndex = (vrfStage env w task).challengeIndex) := by
  rcases GetHeader_cases env (challengeHeight env (vrfStage env w task)) with ⟨hd, hq⟩ | hq
  · rw [HandleStartTask_of_header env w task hd hq]
    obtain ⟨hqs, _, _, hsend⟩ :=
      HandleChallengedTask_trace env w (env.SetHeader hd (vrfStage env w task))
    have htask := (HandleChallengedTask_task env w (env.SetHeader hd (vrfStage env w task))).1
    refine ⟨?_, fun hset => ⟨?_, ?_⟩⟩
    · simp [HandleTaskAfterChallenge, Outcome.after, startTrace, queries, queries_append, hqs,
        challengeHeight]
    · show (HandleChallengedTask env w (env.SetHeader hd (vrfStage env w task))).task.challengeIndex
        = _
      rw [htask, SolveProblem_challengeIndex, hset]
    · intro t ht
      have hev : sends ((HandleTaskAfterChallenge env w hd (vrfStage env w task)).after
            (startTrace (challengeHeight env (vrfStage env w task)))).events
          = sends (HandleChallengedTask env w (env.SetHeader hd (vrfStage env w task))).events := by
        simp [HandleTaskAfterChallenge, Outcome.after, startTrace, sends, sends_append]
      rw [hev, hsend] at ht
      cases he : (SolveProblem env w (env.SetHeader hd (vrfStage env w task))).err with
      | none =>
        rw [he] at ht
        simp only [List.mem_singleton] at ht
        rw [ht, SolveProblem_challengeIndex, hset]
      | some e =>
        rw [he] at ht
        simp at ht
  · rw [HandleStartTask_of_no_header env w task hq]
    refine ⟨?_, fun _ => ⟨rfl, ?_⟩⟩
    · simp [Outcome.after, startTrace, queries, HandlerTaskBeforeChallenge, challengeHeight]
    · intro t ht
      simp only [Outcome.after, startTrace, HandlerTaskBeforeChallenge, sends, List.cons_append,
        List.nil_append, List.mem_singleton] at ht
      rw [ht]

/-! ## The claims -/

/-- C1: called on a task whose step is not GOT_CHALLENGE_BLOCK, `SolveProblem`
returns `InvalidStepError` and leaves the whole task, its step included, as it
was; its trace is empty, so neither the prover nor the signer was called. -/
theorem SolveProblem_invalid_step (env : Env) (w : Worker) (task : Task)
    (h : task.Step ≠ TASKGETCHALLENGEBLOCK) :
    (SolveProblem env w task).err = some Error.InvalidStepError ∧
    (SolveProblem env w task).task = task ∧
    (SolveProblem env w task).task.Step = task.Step ∧
    (SolveProblem env w task).events = [] := by
  simp [SolveProblem, h]

/-- C1 at a task still waiting for its challenge block. -/
theorem SolveProblem_invalid_step_witness :
    (freshTask TASKWAITCHALLENGEBLOCK).Step ≠ TASKGETCHALLENGEBLOCK ∧
    (SolveProblem testEnv testWorker (freshTask TASKWAITCHALLENGEBLOCK)).err
      = some Error.InvalidStepError ∧
    (SolveProblem testEnv testWorker (freshTask TASKWAITCHALLENGEBLOCK)).task.Step
      = TASKWAITCHALLENGEBLOCK :=
  have h : (freshTask TASKWAITCHALLENGEBLOCK).Step ≠ TASKGETCHALLENGEBLOCK := by decide
  have r := SolveProblem_invalid_step testEnv testWorker (freshTask TASKWAITCHALLENGEBLOCK) h
  ⟨h, r.1, r.2.2.1⟩

/-- C2: a task does not reach SOLVED with an empty `zkpProof`, `mimcHash` or
`signature`.  For a prover whose slices are nil or hold bytes and a signer that
returns an error or 65 bytes that are not all zero, when `SolveProblem` moves a
task (with its 65-byte signature) to SOLVED, `ZkpProof` and `MimcHash` of its
ticket are not empty, and its signature is the signature `crypto.Sign` returned,
without error, for the hash of the serialized ticket; it is not the zero value. -/
theorem SolveProblem_solved_nonempty (env : Env) (w : Worker) (task : Task)
    (hhash : NilOrNonEmpty (env.Prove (preimageOf env task)).1)
    (hproof : NilOrNonEmpty (env.Prove (preimageOf env task)).2)
    (hsign : ∀ hash, SignsOrFails (env.Sign hash w.sk))
    (hlen : task.signature.length = 65)
    (hbefore : task.Step ≠ TASKPROBLEMSOLVED)
    (hafter : (SolveProblem env w task).task.Step = TASKPROBLEMSOLVED) :
    isEmptySlice (SolveProblem env w task).task.lottery.ZkpProof = false ∧
    isEmptySlice (SolveProblem env w task).task.lottery.MimcHash = false ∧
    (∃ b sig,
      env.Serialize (SolveProblem env w task).task.lottery = (b, none) ∧
      env.Sign (env.Keccak256 b) w.sk = (sig, none) ∧
      (SolveProblem env w task).task.signature = sig) ∧
    (SolveProblem env w task).task.signature ≠ List.replicate 65 0 := by
  obtain ⟨m, p, b, sig, hp, hm, hz, hser, hsig, _, hcopy, _, hlot⟩ :=
    SolveProblem_solved_fields env w task hbefore hafter
  have hs65 : sig.length = 65 ∧ sig ≠ List.replicate 65 0 := by
    rcases hsign (env.Keccak256 b) with h | h
    · rw [hsig] at h
      exact absurd rfl h
    · rw [hsig] at h
      exact h
  have hsame := hcopy (by rw [hs65.1, hlen])
  rw [hp] at hhash hproof
  refine ⟨?_, ?_, ⟨b, sig, ?_, hsig, hsame⟩, ?_⟩
  · rw [hz]
    rcases hproof with h | h
    · simp at h
    · exact h
  · rw [hm]
    rcases hhash with h | h
    · simp at h
    · exact h
  · rw [hlot]
    exact hser
  · rw [hsame]
    exact hs65.2

/-- C2 at a task at GOT_CHALLENGE_BLOCK, with a prover that returns a hash and a
proof and a signer that returns 65 bytes. -/
theorem SolveProblem_solved_nonempty_witness :
    (SolveProblem testEnv testWorker (freshTask TASKGETCHALLENGEBLOCK)).task.Step
      = TASKPROBLEMSOLVED ∧
    isEmptySlice
      (SolveProblem testEnv testWorker (freshTask TASKGETCHALLENGEBLOCK)).task.lottery.ZkpProof
      = false ∧
    isEmptySlice
      (SolveProblem testEnv testWorker (freshTask TASKGETCHALLENGEBLOCK)).task.lottery.MimcHash
      = false ∧
    (SolveProblem testEnv testWorker (freshTask TASKGETCHALLENGEBLOCK)).task.signature
      ≠ List.replicate 65 0 :=
  have h := SolveProblem_solved_nonempty testEnv testWorker (freshTask TASKGETCHALLENGEBLOCK)
    (Or.inr (by decide)) (Or.inr (by decide))
    (fun _ => Or.inr
      ⟨(by decide : (List.replicate 65 1).length = 65),
       (by decide : List.replicate 65 1 ≠ List.replicate 65 0)⟩)
    (by decide) (by decide) (by decide)
  ⟨by decide, h.1, h.2.1, h.2.2.2⟩

/-- C10: `HandleChallengedTask` returns the error of `SolveProblem` and leaves
the task as `SolveProblem` left it; it sends on the scanner's inbound channel if
and only if `SolveProblem` returned no error, what it sends is the task, once,
at step SOLVED; when `SolveProblem` fails nothing is sent and the step is the
one the task came with; the prover and the signer are called at most once. -/
theorem HandleChallengedTask_forwards_iff_solved (env : Env) (w : Worker) (task : Task) :
    (HandleChallengedTask env w task).err = (SolveProblem env w task).err ∧
    (HandleChallengedTask env w task).task = (SolveProblem env w task).task ∧
    (sends (HandleChallengedTask env w task).events ≠ [] ↔
      (SolveProblem env w task).err = none) ∧
    (∀ t ∈ sends (HandleChallengedTask env w task).events, t.Step = TASKPROBLEMSOLVED) ∧
    ((SolveProblem env w task).err = none →
      sends (HandleChallengedTask env w task).events = [(HandleChallengedTask env w task).task] ∧
      (HandleChallengedTask env w task).task.Step = TASKPROBLEMSOLVED) ∧
    ((SolveProblem env w task).err ≠ none →
      sends (HandleChallengedTask env w task).events = [] ∧
      (HandleChallengedTask env w task).task.Step = task.Step) ∧
    (proveCalls (HandleChallengedTask env w task).events).length ≤ 1 ∧
    (signCalls (HandleChallengedTask env w task).events).length ≤ 1 := by
  obtain ⟨ht, he⟩ := HandleChallengedTask_task env w task
  obtain ⟨_, hp, hsg, hsend⟩ := HandleChallengedTask_trace env w task
  refine ⟨he, ht, ?_, ?_, ?_, ?_, hp, hsg⟩
  · rw [hsend]
    cases h : (SolveProblem env w task).err <;> simp
  · intro t hmem
    rw [hsend] at hmem
    cases h : (SolveProblem env w task).err with
    | none =>
      rw [h] at hmem
      simp only [List.mem_singleton] at hmem
      rw [hmem]
      exact (SolveProblem_ok_step env w task h).2
    | some e =>
      rw [h] at hmem
      simp at hmem
  · intro h
    rw [hsend, ht, h]
    exact ⟨rfl, (SolveProblem_ok_step env w task h).2⟩
  · intro h
    rw [hsend, ht]
    refine ⟨?_, SolveProblem_err_step env w task h⟩
    cases h2 : (SolveProblem env w task).err with
    | none => exact absurd h2 h
    | some e => rfl

/-- C10 on a solvable task (forwarded once, at SOLVED) and on a task that is
still waiting (nothing forwarded, `InvalidStepError` returned, step kept). -/
theorem HandleChallengedTask_forwards_iff_solved_witness :
    (sends (HandleChallengedTask testEnv testWorker (freshTask TASKGETCHALLENGEBLOCK)).events =
        [(HandleChallengedTask testEnv testWorker (freshTask TASKGETCHALLENGEBLOCK)).task] ∧
      (HandleChallengedTask testEnv testWorker (freshTask TASKGETCHALLENGEBLOCK)).task.Step
        = TASKPROBLEMSOLVED) ∧
    (sends (HandleChallengedTask testEnv testWorker (freshTask TASKWAITCHALLENGEBLOCK)).events = [] ∧
      (HandleChallengedTask testEnv testWorker (freshTask TASKWAITCHALLENGEBLOCK)).task.Step
        = (freshTask TASKWAITCHALLENGEBLOCK).Step) :=
  ⟨(HandleChallengedTask_forwards_iff_solved testEnv testWorker
      (freshTask TASKGETCHALLENGEBLOCK)).2.2.2.2.1 (by decide),
   (HandleChallengedTask_forwards_iff_solved testEnv testWorker
      (freshTask TASKWAITCHALLENGEBLOCK)).2.2.2.2.2.1 (by decide)⟩

/-- C3: for a worker whose `submitAdvance` is less than its `coinbaseInterval`
(both `uint64`), an index selection that maps into the half-open range below its
bound and a `Task.SetHeader` that keeps the index, for every VRF output: the
bound `uint64(coinbaseInterval) - uint64(submitAdvance)` that `HandleStartTask`
passes is `coinbaseInterval - submitAdvance`; the `challengeIndex` it stores is
the selection's value at that bound and is less than it; this is the index of
the task `HandleStartTask` leaves, of every task it sends to the scanner, and of
the one height it asks the scanner for; it is less than 3 when
`coinbaseInterval = 5` and `submitAdvance = 2`. -/
theorem HandleStartTask_challengeIndex_range (env : Env) (w : Worker) (task : Task)
    (hsel : SelectsInRange env.GetChallengeIndex)
    (hset : KeepsChallengeIndex env.SetHeader)
    (hwidth : w.coinbaseInterval < U64)
    (hadv : w.submitAdvance < w.coinbaseInterval) :
    subU64 w.coinbaseInterval w.submitAdvance = w.coinbaseInterval - w.submitAdvance ∧
    (HandleStartTask env w task).task.challengeIndex =
      env.GetChallengeIndex (env.Evaluate w.sk task.lastCoinBaseHash).1
        (w.coinbaseInterval - w.submitAdvance) ∧
    (HandleStartTask env w task).task.challengeIndex < w.coinbaseInterval - w.submitAdvance ∧
    queries (HandleStartTask env w task).events =
      [addU64 env.LastCoinbaseHeight (HandleStartTask env w task).task.challengeIndex] ∧
    (∀ t ∈ sends (HandleStartTask env w task).events,
      t.challengeIndex < w.coinbaseInterval - w.submitAdvance) ∧
    (vrfStage env w task).challengeIndex = (HandleStartTask env w task).task.challengeIndex ∧
    (w.coinbaseInterval = 5 → w.submitAdvance = 2 →
      (HandleStartTask env w task).task.challengeIndex < 3) := by
  have hsub := subU64_of_le w.coinbaseInterval w.submitAdvance hwidth (le_of_lt hadv)
  have hpos : 0 < w.coinbaseInterval - w.submitAdvance := Nat.sub_pos_of_lt hadv
  have hlt := hsel (env.Evaluate w.sk task.lastCoinBaseHash).1
    (w.coinbaseInterval - w.submitAdvance) hpos
  have hbound : w.coinbaseInterval - w.submitAdvance < U64 :=
    lt_of_le_of_lt (Nat.sub_le _ _) hwidth
  have hidx : (vrfStage env w task).challengeIndex =
      env.GetChallengeIndex (env.Evaluate w.sk task.lastCoinBaseHash).1
        (w.coinbaseInterval - w.submitAdvance) := by
    rw [vrfStage_challengeIndex, hsub]
    exact Nat.mod_eq_of_lt (lt_trans hlt hbound)
  obtain ⟨hq, hkeep⟩ := HandleStartTask_index env w task
  obtain ⟨hfinal, hsent⟩ := hkeep hset
  have hrange : (HandleStartTask env w task).task.challengeIndex
      < w.coinbaseInterval - w.submitAdvance := by
    rw [hfinal, hidx]
    exact hlt
  refine ⟨hsub, hfinal.trans hidx, hrange, ?_, ?_, hfinal.symm, ?_⟩
  · rw [hfinal]
    exact hq
  · intro t ht
    rw [hsent t ht, ← hfinal]
    exact hrange
  · intro h5 h2
    rw [h5, h2] at hrange
    exact hrange

/-- C3 with `coinbaseInterval = 5`, `submitAdvance = 2`, an index selection that
reduces modulo the bound, on a task whose header exists (offset 1, height 101)
and on a task that is sent to the scanner to wait (offset 2, height 102). -/
theorem HandleStartTask_challengeIndex_range_witness :
    (HandleStartTask testEnv testWorker (freshTask TASKSTART)).task.challengeIndex < 3 ∧
    queries (HandleStartTask testEnv testWorker
        { freshTask TASKSTART with lastCoinBaseHash := [8] }).events =
      [addU64 testEnv.LastCoinbaseHeight
        (HandleStartTask testEnv testWorker
          { freshTask TASKSTART with lastCoinBaseHash := [8] }).task.challengeIndex] ∧
    (HandleStartTask testEnv testWorker
        { freshTask TASKSTART with lastCoinBaseHash := [8] }).task.challengeIndex = 2 :=
  ⟨(HandleStartTask_challengeIndex_range testEnv testWorker (freshTask TASKSTART)
      (fun index bound hb => Nat.mod_lt (List.sum index) hb) (fun _ _ => rfl)
      (by decide) (by decide)).2.2.2.2.2.2 rfl rfl,
   (HandleStartTask_challengeIndex_range testEnv testWorker
      { freshTask TASKSTART with lastCoinBaseHash := [8] }
      (fun index bound hb => Nat.mod_lt (List.sum index) hb) (fun _ _ => rfl)
      (by decide) (by decide)).2.2.2.1,
   by decide⟩

/-- C4: `HandleStartTask` sets the step to WAIT_CHALLENGE_BLOCK and asks the
scanner once, for the header at `LastCoinbaseHeight + challengeIndex` (the sum on
`Height`, which is the sum of the two numbers when that fits in 64 bits).  When
the answer is a header and no error, the call continues as
`HandleChallengedTask` on the task with that header set; otherwise it returns no
error and has sent the task to the scanner's inbound channel once, at step
WAIT_CHALLENGE_BLOCK. -/
theorem HandleStartTask_query_then_branch (env : Env) (w : Worker) (task : Task) :
    (vrfStage env w task).Step = TASKWAITCHALLENGEBLOCK ∧
    queries (HandleStartTask env w task).events =
      [addU64 env.LastCoinbaseHeight (vrfStage env w task).challengeIndex] ∧
    (env.LastCoinbaseHeight + (vrfStage env w task).challengeIndex < U64 →
      addU64 env.LastCoinbaseHeight (vrfStage env w task).challengeIndex =
        env.LastCoinbaseHeight + (vrfStage env w task).challengeIndex) ∧
    (∀ header,
      env.GetHeader (addU64 env.LastCoinbaseHeight (vrfStage env w task).challengeIndex)
        = (some header, none) →
      HandleStartTask env w task =
        (HandleChallengedTask env w (env.SetHeader header (vrfStage env w task))).after
          (startTrace (addU64 env.LastCoinbaseHeight (vrfStage env w task).challengeIndex) ++
            [Event.log Level.debug "handler task after challenge"])) ∧
    ((∀ header,
        env.GetHeader (addU64 env.LastCoinbaseHeight (vrfStage env w task).challengeIndex)
          ≠ (some header, none)) →
      (HandleStartTask env w task).err = none ∧
      (HandleStartTask env w task).task = vrfStage env w task ∧
      (HandleStartTask env w task).task.Step = TASKWAITCHALLENGEBLOCK ∧
      sends (HandleStartTask env w task).events = [vrfStage env w task]) := by
  have hfound : ∀ header,
      env.GetHeader (addU64 env.LastCoinbaseHeight (vrfStage env w task).challengeIndex)
        = (some header, none) →
      HandleStartTask env w task =
        (HandleChallengedTask env w (env.SetHeader header (vrfStage env w task))).after
          (startTrace (addU64 env.LastCoinbaseHeight (vrfStage env w task).challengeIndex) ++
            [Event.log Level.debug "handler task after challenge"]) := by
    intro header hq
    rw [HandleStartTask_of_header env w task header hq]
    simp [HandleTaskAfterChallenge, Outcome.after, challengeHeight]
  have hmissing : (∀ header,
        env.GetHeader (addU64 env.LastCoinbaseHeight (vrfStage env w task).challengeIndex)
          ≠ (some header, none)) →
      HandleStartTask env w task =
        (HandlerTaskBeforeChallenge w (vrfStage env w task)).after
          (startTrace (addU64 env.LastCoinbaseHeight (vrfStage env w task).challengeIndex)) :=
    fun hq => HandleStartTask_of_no_header env w task hq
  refine ⟨rfl, ?_, ?_, hfound, ?_⟩
  · rcases GetHeader_cases env
        (addU64 env.LastCoinbaseHeight (vrfStage env w task).challengeIndex) with ⟨hd, hq⟩ | hq
    · rw [hfound hd hq]
      simp [Outcome.after, startTrace, queries, queries_append,
        (HandleChallengedTask_trace env w (env.SetHeader hd (vrfStage env w task))).1]
    · rw [hmissing hq]
      simp [Outcome.after, startTrace, queries, HandlerTaskBeforeChallenge]
  · intro hfit
    exact Nat.mod_eq_of_lt hfit
  · intro hq
    rw [hmissing hq]
    simp [Outcome.after, startTrace, sends, HandlerTaskBeforeChallenge, vrfStage]

/-- C4 where the header exists (offset 1, height 101: the call goes on to
`HandleChallengedTask`) and where it does not (offset 2, height 102: the task is
handed to the scanner, once, at WAIT_CHALLENGE_BLOCK). -/
theorem HandleStartTask_query_then_branch_witness :
    HandleStartTask testEnv testWorker (freshTask TASKSTART) =
      (HandleChallengedTask testEnv testWorker
        (testEnv.SetHeader ⟨101⟩ (vrfStage testEnv testWorker (freshTask TASKSTART)))).after
        (startTrace 101 ++ [Event.log Level.debug "handler task after challenge"]) ∧
    sends (HandleStartTask testEnv testWorker
        { freshTask TASKSTART with lastCoinBaseHash := [8] }).events =
      [vrfStage testEnv testWorker { freshTask TASKSTART with lastCoinBaseHash := [8] }] :=
  ⟨(HandleStartTask_query_then_branch testEnv testWorker (freshTask TASKSTART)).2.2.2.1
      ⟨101⟩ (by decide),
   ((HandleStartTask_query_then_branch testEnv testWorker
      { freshTask TASKSTART with lastCoinBaseHash := [8] }).2.2.2.2
      (fun header hq => by
        have hnone : testEnv.GetHeader (addU64 testEnv.LastCoinbaseHeight
            (vrfStage testEnv testWorker
              { freshTask TASKSTART with lastCoinBaseHash := [8] }).challengeIndex)
            = (none, some (Error.other "not found")) := by decide
        rw [hnone] at hq
        simp at hq)).2.2.2⟩

/-- C5, two regressions: `HandlerTaskBeforeChallenge` assigns
WAIT_CHALLENGE_BLOCK whatever the step was, so a task at SOLVED leaves it at
WAIT_CHALLENGE_BLOCK; so does `HandleStartTask` on a task at SOLVED whose
challenge header is not there yet. -/
theorem HandlerTaskBeforeChallenge_regresses :
    (HandlerTaskBeforeChallenge testWorker (freshTask TASKPROBLEMSOLVED)).task.Step
      = TASKWAITCHALLENGEBLOCK ∧
    ¬ ((freshTask TASKPROBLEMSOLVED).Step.rank ≤
        (HandlerTaskBeforeChallenge testWorker (freshTask TASKPROBLEMSOLVED)).task.Step.rank) ∧
    (HandleStartTask testEnv testWorker
        { freshTask TASKPROBLEMSOLVED with lastCoinBaseHash := [8] }).task.Step
      = TASKWAITCHALLENGEBLOCK := by
  decide

/-- C5, amended: `SignLottery`, `SolveProblem` and `HandleChallengedTask` never
lower the step of any task, and `HandleTaskAfterChallenge` does not when
`Task.SetHeader` does not.  `HandlerTaskBeforeChallenge` assigns
WAIT_CHALLENGE_BLOCK unconditionally, so it keeps the order exactly for the
tasks at START or WAIT_CHALLENGE_BLOCK; `HandleStartTask` keeps it for these
tasks (the dispatch loop calls it at START only) provided `Task.SetHeader` does
not take the waiting task below WAIT_CHALLENGE_BLOCK. -/
theorem step_never_regresses_on_dispatched_tasks (env : Env) (w : Worker) (task : Task) :
    task.Step.rank ≤ (SignLottery env w task).task.Step.rank ∧
    task.Step.rank ≤ (SolveProblem env w task).task.Step.rank ∧
    task.Step.rank ≤ (HandleChallengedTask env w task).task.Step.rank ∧
    (∀ header, task.Step.rank ≤ (env.SetHeader header task).Step.rank →
      task.Step.rank ≤ (HandleTaskAfterChallenge env w header task).task.Step.rank) ∧
    (task.Step.rank ≤ (HandlerTaskBeforeChallenge w task).task.Step.rank ↔
      (task.Step = TASKSTART ∨ task.Step = TASKWAITCHALLENGEBLOCK)) ∧
    ((task.Step = TASKSTART ∨ task.Step = TASKWAITCHALLENGEBLOCK) →
      (∀ header, TASKWAITCHALLENGEBLOCK.rank ≤
        (env.SetHeader header (vrfStage env w task)).Step.rank) →
      task.Step.rank ≤ (HandleStartTask env w task).task.Step.rank) := by
  refine ⟨?_, SolveProblem_rank env w task, HandleChallengedTask_rank env w task, ?_, ?_, ?_⟩
  · rw [SignLottery_step]
  · intro header hset
    exact le_trans hset (HandleChallengedTask_rank env w (env.SetHeader header task))
  · show task.Step.rank ≤ TASKWAITCHALLENGEBLOCK.rank ↔ _
    cases task.Step <;> decide
  · intro hstep hset
    have hwait : task.Step.rank ≤ TASKWAITCHALLENGEBLOCK.rank := by
      rcases hstep with h | h <;> simp [h, TaskStep.rank]
    rcases GetHeader_cases env (challengeHeight env (vrfStage env w task)) with ⟨hd, hq⟩ | hq
    · rw [HandleStartTask_of_header env w task hd hq]
      exact le_trans hwait (le_trans (hset hd)
        (HandleChallengedTask_rank env w (env.SetHeader hd (vrfStage env w task))))
    · rw [HandleStartTask_of_no_header env w task hq]
      exact hwait

/-- C5, amended, on a task at START whose challenge header exists:
`HandleStartTask` takes it forward (to SOLVED). -/
theorem step_never_regresses_on_dispatched_tasks_witness :
    (freshTask TASKSTART).Step.rank ≤
        (HandleStartTask testEnv testWorker (freshTask TASKSTART)).task.Step.rank ∧
    (HandleStartTask testEnv testWorker (freshTask TASKSTART)).task.Step = TASKPROBLEMSOLVED :=
  ⟨(step_never_regresses_on_dispatched_tasks testEnv testWorker (freshTask TASKSTART)).2.2.2.2.2
      (Or.inl rfl) (fun _ => (by decide : (1 : Nat) ≤ 2)),
   by decide⟩

/-- C6, a task at WAIT_CHALLENGE_BLOCK reaching a running worker: the iteration
starts no handler and writes no log line; the task is ignored silently. -/
theorem Loop_ignores_silently :
    isRunning testWorker = true ∧
    (Loop testWorker (Signal.inbound (freshTask TASKWAITCHALLENGEBLOCK))).spawned = none ∧
    (Loop testWorker (Signal.inbound (freshTask TASKWAITCHALLENGEBLOCK))).logged = [] := by
  decide

/-- C6, amended: when a running worker receives a task whose step is neither
START nor GOT_CHALLENGE_BLOCK, the iteration of `Loop` drops it: no handler is
started, nothing is logged, the worker is as it was and the loop goes on. -/
theorem Loop_drops_other_steps (w : Worker) (task : Task)
    (hrun : isRunning w = true)
    (hstart : task.Step ≠ TASKSTART) (hgot : task.Step ≠ TASKGETCHALLENGEBLOCK) :
    Loop w (Signal.inbound task) = ⟨w, true, none, []⟩ := by
  simp [Loop, hrun, hstart, hgot]

/-- C6, amended, at a solved task reaching a running worker. -/
theorem Loop_drops_other_steps_witness :
    Loop testWorker (Signal.inbound (freshTask TASKPROBLEMSOLVED)) = ⟨testWorker, true, none, []⟩ :=
  Loop_drops_other_steps testWorker (freshTask TASKPROBLEMSOLVED)
    (by decide) (by decide) (by decide)

/-- C7: a worker whose running flag is 0, as `stop` and `close` leave it, drops
every task it receives, whatever the step: the iteration starts no goroutine, so
no handler runs (the task is not touched and nothing reaches the scanner), it
logs nothing, leaves the worker as it was and the loop goes on.  After `start`,
a task at START is given to a goroutine that runs `HandleStartTask` on it and a
task at GOT_CHALLENGE_BLOCK to a goroutine that runs `HandleChallengedTask` on
it: the goroutine counts itself in `workingTaskCnt`, its outcome is the
handler's with the returned error logged, and it takes itself off the count. -/
theorem Loop_stopped_drops_every_task (env : Env) (w : Worker) (task : Task) :
    (w.running = 0 → Loop w (Signal.inbound task) = ⟨w, true, none, []⟩) ∧
    (stop w).running = 0 ∧
    (close w).1.running = 0 ∧
    Loop (stop w) (Signal.inbound task) = ⟨stop w, true, none, []⟩ ∧
    Loop (close w).1 (Signal.inbound task) = ⟨(close w).1, true, none, []⟩ ∧
    (task.Step = TASKSTART →
      Loop (start w) (Signal.inbound task)
        = ⟨start w, true, some (Handler.startTask, task), []⟩) ∧
    (task.Step = TASKGETCHALLENGEBLOCK →
      Loop (start w) (Signal.inbound task)
        = ⟨start w, true, some (Handler.challengedTask, task), []⟩) ∧
    (w.running = 0 → (Loop w (Signal.inbound task)).run env = none) ∧
    (Loop (stop w) (Signal.inbound task)).run env = none ∧
    (Loop (close w).1 (Signal.inbound task)).run env = none ∧
    (task.Step = TASKSTART →
      (Loop (start w) (Signal.inbound task)).run env =
        some
          ({ start w with
              workingTaskCnt := addInt32 (addInt32 w.workingTaskCnt 1) (-1) },
           logError
            (HandleStartTask env
              { start w with workingTaskCnt := addInt32 w.workingTaskCnt 1 } task))) ∧
    (task.Step = TASKGETCHALLENGEBLOCK →
      (Loop (start w) (Signal.inbound task)).run env =
        some
          ({ start w with
              workingTaskCnt := addInt32 (addInt32 w.workingTaskCnt 1) (-1) },
           logError
            (HandleChallengedTask env
              { start w with workingTaskCnt := addInt32 w.workingTaskCnt 1 } task))) := by
  have hclose : (close w).1.running = 0 := by
    unfold close closeBody
    dsimp only
    split <;> rfl
  refine ⟨?_, rfl, hclose, ?_, ?_, ?_, ?_, ?_, ?_, ?_, ?_, ?_⟩
  · intro h
    simp [Loop, isRunning, h]
  · simp [Loop, isRunning, stop]
  · simp [Loop, isRunning, hclose]
  · intro h
    simp [Loop, isRunning, start, h]
  · intro h
    simp [Loop, isRunning, start, h]
  · intro h
    simp [Loop, isRunning, h, Iteration.run]
  · simp [Loop, isRunning, stop, Iteration.run]
  · simp [Loop, isRunning, hclose, Iteration.run]
  · intro h
    simp [Loop, isRunning, start, h, Iteration.run, goroutine]
  · intro h
    simp [Loop, isRunning, start, h, Iteration.run, goroutine]

/-- C7 on a stopped worker receiving a task at START (dropped, no goroutine),
and on the same worker started again: the goroutine runs `HandleStartTask`,
which takes the task to SOLVED. -/
theorem Loop_stopped_drops_every_task_witness :
    Loop (stop testWorker) (Signal.inbound (freshTask TASKSTART))
      = ⟨stop testWorker, true, none, []⟩ ∧
    Loop (start (stop testWorker)) (Signal.inbound (freshTask TASKSTART))
      = ⟨start (stop testWorker), true, some (Handler.startTask, freshTask TASKSTART), []⟩ ∧
    (Loop (stop testWorker) (Signal.inbound (freshTask TASKSTART))).run testEnv = none ∧
    (Loop (start (stop testWorker)) (Signal.inbound (freshTask TASKSTART))).run testEnv =
      some
        ({ start (stop testWorker) with
            workingTaskCnt := addInt32 (addInt32 (stop testWorker).workingTaskCnt 1) (-1) },
         logError
          (HandleStartTask testEnv
            { start (stop testWorker) with
                workingTaskCnt := addInt32 (stop testWorker).workingTaskCnt 1 }
            (freshTask TASKSTART))) ∧
    (logError
        (HandleStartTask testEnv
          { start (stop testWorker) with
              workingTaskCnt := addInt32 (stop testWorker).workingTaskCnt 1 }
          (freshTask TASKSTART))).task.Step = TASKPROBLEMSOLVED :=
  ⟨(Loop_stopped_drops_every_task testEnv (stop testWorker) (freshTask TASKSTART)).1 rfl,
   (Loop_stopped_drops_every_task testEnv (stop testWorker)
      (freshTask TASKSTART)).2.2.2.2.2.1 rfl,
   (Loop_stopped_drops_every_task testEnv (stop testWorker)
      (freshTask TASKSTART)).2.2.2.2.2.2.2.1 rfl,
   (Loop_stopped_drops_every_task testEnv (stop testWorker)
      (freshTask TASKSTART)).2.2.2.2.2.2.2.2.2.2.1 rfl,
   by decide⟩

/-- C8, the channel `close` closes is the exit channel: the intake channel of a
worker whose two channels are open is still open after `close`. -/
theorem close_leaves_intake_open :
    testWorker.inboundTaskCh = Chan.openChan ∧
    (close testWorker).1.inboundTaskCh = Chan.openChan ∧
    (close testWorker).1.exitCh = Chan.closedChan := by
  decide

/-- C8, amended: for every worker state `close` returns normally, leaves the
running flag at 0 and the exit channel closed (a nil exit channel stays nil),
and leaves the intake channel as it was; on the resulting state the body of a
second `close` panics, the panic is recovered, and the second `close` returns
normally with the state unchanged. -/
theorem close_idempotent (w : Worker) :
    (close w).2 = none ∧
    (close w).1.running = 0 ∧
    (close w).1.exitCh =
      (match w.exitCh with
        | Chan.nilChan => Chan.nilChan
        | _ => Chan.closedChan) ∧
    (close w).1.inboundTaskCh = w.inboundTaskCh ∧
    (closeBody (close w).1).2 ≠ none ∧
    close (close w).1 = ((close w).1, none) := by
  obtain ⟨running, minerAddr, sk, cnt, ci, sa, inb, ex⟩ := w
  cases ex <;> simp [close, closeBody, closeChan]

end Zkpminer
